import Mathlib

/-!
Verification of the Smart_Form_Filler backend core: the Gemini field
extraction and substring verification step (`backend/gemini.py`) and the
PDF template filler (`backend/pdf_fill.py`).

External collaborators (the Gemini API, `json.loads`, PyMuPDF's page
search and the filesystem) are modelled as explicit parameters/oracles;
everything the repository itself computes is translated directly from the
Python source. Python machine strings are modelled as Lean `String`
(Python's `str.lower` / whitespace set are approximated by their ASCII
behaviour, which both the code and the claims use identically on both
sides of every comparison). PDF coordinates (Python floats) are modelled
as exact rationals.
-/

set_option autoImplicit false

/-! ### Python string primitives used by `gemini.py` -/

/-- Characters treated as whitespace by Python's `str.split()` / `str.strip()`
(ASCII subset). -/
def pyIsSpace (c : Char) : Bool :=
  c == ' ' || c == '\t' || c == '\n' || c == '\r' || c == Char.ofNat 11 || c == Char.ofNat 12

/-- Python `s.lower()` (character-wise). -/
def pyLower (s : String) : String :=
  String.mk (s.toList.map Char.toLower)

/-- Helper for `pySplitWs`: accumulates the current word in reverse. -/
def pySplitWsAux : List Char → List Char → List String
  | [], acc => if acc.isEmpty then [] else [String.mk acc.reverse]
  | c :: rest, acc =>
      if pyIsSpace c then
        if acc.isEmpty then pySplitWsAux rest []
        else String.mk acc.reverse :: pySplitWsAux rest []
      else pySplitWsAux rest (c :: acc)

/-- Python `s.split()` with no argument: split on whitespace runs, dropping
empty pieces. -/
def pySplitWs (s : String) : List String :=
  pySplitWsAux s.toList []

/-- Python `sep.join(parts)`. -/
def pyJoin (sep : String) : List String → String
  | [] => ""
  | [x] => x
  | x :: y :: ys => x ++ sep ++ pyJoin sep (y :: ys)

/-- The normalization used by `_enforce_substring_constraints`:
`" ".join(s.lower().split())`. -/
def normalizeText (s : String) : String :=
  pyJoin " " (pySplitWs (pyLower s))

/-- `listStartsWith n l` is true when `n` is a prefix of `l`. -/
def listStartsWith : List Char → List Char → Bool
  | [], _ => true
  | _ :: _, [] => false
  | a :: as, b :: bs => a == b && listStartsWith as bs

/-- `listContainsSub n l` is true when `n` occurs contiguously inside `l`. -/
def listContainsSub : List Char → List Char → Bool
  | needle, [] => needle.isEmpty
  | needle, b :: bs => listStartsWith needle (b :: bs) || listContainsSub needle bs

/-- Python `needle in hay` on strings. -/
def strContains (hay needle : String) : Bool :=
  listContainsSub needle.toList hay.toList

/-- Python `s.startswith(pre)`. -/
def pyStartswith (s pre : String) : Bool :=
  listStartsWith pre.toList s.toList

/-- Python `s.strip()` (ASCII whitespace). -/
def pyStrip (s : String) : String :=
  String.mk (((s.toList.dropWhile pyIsSpace).reverse.dropWhile pyIsSpace).reverse)

/-- Helper for `pySplitlines`: accumulates the current line in reverse. -/
def pySplitlinesAux : List Char → List Char → List String
  | [], acc => if acc.isEmpty then [] else [String.mk acc.reverse]
  | '\r' :: '\n' :: rest, acc => String.mk acc.reverse :: pySplitlinesAux rest []
  | '\r' :: rest, acc => String.mk acc.reverse :: pySplitlinesAux rest []
  | '\n' :: rest, acc => String.mk acc.reverse :: pySplitlinesAux rest []
  | c :: rest, acc => pySplitlinesAux rest (c :: acc)

/-- Python `s.splitlines()` (for `\n`, `\r\n` and `\r` terminators): no line
terminators are kept and a trailing terminator produces no extra line. -/
def pySplitlines (s : String) : List String :=
  pySplitlinesAux s.toList []

/-! ### Python/JSON values and dictionaries -/

/-- Python values arising in `gemini.py` / `pdf_fill.py`: JSON values
(`json.loads` output) together with Python `None`. Dictionaries are
association lists in insertion order, as in CPython. -/
inductive PyVal where
  | none
  | str (s : String)
  | int (n : Int)
  | bool (b : Bool)
  | list (xs : List PyVal)
  | dict (kvs : List (String × PyVal))

mutual

/-- Python `repr` (also `str` on non-string values): `None`, `True`, numbers,
and recursive renderings for containers, with strings quoted. -/
def pyRepr : PyVal → String
  | PyVal.none => "None"
  | PyVal.str s => String.singleton (Char.ofNat 39) ++ s ++ String.singleton (Char.ofNat 39)
  | PyVal.int n => toString n
  | PyVal.bool b => if b then "True" else "False"
  | PyVal.list xs => "[" ++ pyJoin ", " (pyReprList xs) ++ "]"
  | PyVal.dict kvs => "\x7b" ++ pyJoin ", " (pyReprPairs kvs) ++ "\x7d"

def pyReprList : List PyVal → List String
  | [] => []
  | v :: vs => pyRepr v :: pyReprList vs

def pyReprPairs : List (String × PyVal) → List String
  | [] => []
  | kv :: kvs =>
      (String.singleton (Char.ofNat 39) ++ kv.1 ++ String.singleton (Char.ofNat 39) ++ ": "
        ++ pyRepr kv.2) :: pyReprPairs kvs

end

/-- Python `str(v)`: the string itself for strings, `repr`-style otherwise. -/
def pyStr : PyVal → String
  | PyVal.str s => s
  | v => pyRepr v

/-- Python truthiness (`bool(v)`) for the values of `PyVal`. -/
def pyTruthy : PyVal → Bool
  | PyVal.none => false
  | PyVal.str s => !(s == "")
  | PyVal.int n => !(n == 0)
  | PyVal.bool b => b
  | PyVal.list xs => !xs.isEmpty
  | PyVal.dict kvs => !kvs.isEmpty

/-- Python `d.get(k)`: the value bound to `k`, or `None` when `k` is absent. -/
def dictGet : List (String × PyVal) → String → PyVal
  | [], _ => PyVal.none
  | kv :: rest, k => if kv.1 = k then kv.2 else dictGet rest k

/-- Python `d[k] = v`: replace the binding of `k` in place, or append it. -/
def dictSet : List (String × PyVal) → String → PyVal → List (String × PyVal)
  | [], k, v => [(k, v)]
  | kv :: rest, k, v => if kv.1 = k then (k, v) :: rest else kv :: dictSet rest k v

/-- Python `k in d` on dictionaries. -/
def hasKey : List (String × PyVal) → String → Bool
  | [], _ => false
  | kv :: rest, k => if kv.1 = k then true else hasKey rest k

/-! ### `backend/gemini.py` -/

/-- The five field keys iterated by `_enforce_substring_constraints`. -/
def FIELD_KEYS : List String := ["name", "dob", "address", "phone", "email"]

/-- The all-null five-field dictionary literal used by both fallback paths of
`extract_fields_with_gemini`. -/
def nullFields : List (String × PyVal) :=
  [("name", PyVal.none), ("dob", PyVal.none), ("address", PyVal.none),
   ("phone", PyVal.none), ("email", PyVal.none)]

/-- The module environment of `gemini.py`: `API_KEY = os.getenv("GEMINI_API_KEY")`. -/
structure GeminiEnv where
  apiKey : Option String

/-- Outcome of `model.generate_content(prompt)` followed by `response.text`:
either some exception, or the response text. -/
inductive ModelOutcome where
  | failure (exc : String)
  | response (text : String)

/-- One iteration of the loop in `_enforce_substring_constraints`:
`val = data.get(key); if isinstance(val, str): ... if val_norm and val_norm
not in ocr_norm: data[key] = None`. -/
def enforceStep (ocr_norm : String) (d : List (String × PyVal)) (key : String) :
    List (String × PyVal) :=
  match dictGet d key with
  | PyVal.str s =>
      let val_norm := normalizeText s
      if val_norm ≠ "" ∧ strContains ocr_norm val_norm = false then dictSet d key PyVal.none
      else d
  | _ => d

/-- `_enforce_substring_constraints(data, raw_text)`. On a non-dict argument
Python raises `AttributeError` at `data.get`, modelled as `Except.error`. -/
def enforce_substring_constraints (data : PyVal) (raw_text : String) :
    Except String (List (String × PyVal)) :=
  match data with
  | PyVal.dict kvs => Except.ok (FIELD_KEYS.foldl (enforceStep (normalizeText raw_text)) kvs)
  | _ => Except.error "AttributeError: object has no attribute get"

/-- The code-fence removal in `extract_fields_with_gemini`: if the text starts
with three backticks and has at least three lines, drop the first and last
line and rejoin with newlines. -/
def stripCodeFence (text : String) : String :=
  if pyStartswith text "```" then
    let lines := pySplitlines text
    if 3 ≤ lines.length then pyJoin "\n" ((lines.drop 1).dropLast)
    else text
  else text

/-- `extract_fields_with_gemini(raw_text)`. The Gemini call is the
`outcome` oracle and `json.loads` is the `parse_json` oracle (`Option.none`
meaning `JSONDecodeError`). `_get_model()` raises `RuntimeError` when the
API key is unset; raised exceptions are `Except.error`. -/
def extract_fields_with_gemini (env : GeminiEnv) (parse_json : String → Option PyVal)
    (outcome : ModelOutcome) (raw_text : String) :
    Except String (List (String × PyVal)) :=
  match env.apiKey with
  | Option.none => Except.error "RuntimeError: GEMINI_API_KEY is not set in environment or .env file"
  | Option.some _ =>
    match outcome with
    | ModelOutcome.failure exc =>
        Except.ok (nullFields ++
          [("raw_text", PyVal.str raw_text),
           ("_error", PyVal.str ("Gemini request failed: " ++ exc))])
    | ModelOutcome.response rtext =>
        let text := stripCodeFence (pyStrip rtext)
        let data : PyVal :=
          match parse_json text with
          | Option.some v => v
          | Option.none => PyVal.dict (nullFields ++ [("_raw_model_output", PyVal.str text)])
        match enforce_substring_constraints data raw_text with
        | Except.error e => Except.error e
        | Except.ok kvs => Except.ok (dictSet kvs "raw_text" (PyVal.str raw_text))

/-! ### `backend/pdf_fill.py` -/

/-- A PyMuPDF rectangle (coordinates modelled as exact rationals). -/
structure Rect where
  x0 : Rat
  y0 : Rat
  x1 : Rat
  y1 : Rat
deriving DecidableEq

/-- One `page.insert_text((x, y), text, fontsize=...)` call recorded on the
output page (the constant black fill colour is not recorded). -/
structure Insertion where
  x : Rat
  y : Rat
  text : String
  fontsize : Nat
deriving DecidableEq

/-- A candidate template file: its path, whether `Path.is_file()` holds, and
PyMuPDF's `page.search_for` on its first page as an oracle. -/
structure Template where
  path : String
  isFile : Bool
  searchFor : String → List Rect

/-- The result of `generate_filled_pdf`: which branch built the page, the
text insertions made on it, the path passed to `doc.save`, and the returned
path. -/
structure FillResult where
  usedTemplate : Bool
  insertions : List Insertion
  savedPath : String
  returnedPath : String
deriving DecidableEq

/-- `pathlib.PurePath.name`: the final path component (trailing slashes are
not part of the name). -/
def pathName (p : String) : String :=
  let cs := p.toList.reverse.dropWhile (fun c => c == '/')
  String.mk ((cs.takeWhile (fun c => !(c == '/'))).reverse)

/-- `pathlib.PurePath.suffix`: the final extension of the name, including the
dot, empty when the only dot is leading or trailing. -/
def pathSuffix (p : String) : String :=
  let name := (pathName p).toList
  match name.reverse.findIdx? (fun c => c == '.') with
  | Option.none => ""
  | Option.some j =>
      let i := name.length - 1 - j
      if 0 < i ∧ i < name.length - 1 then String.mk (name.drop i) else ""

/-- `pathlib.PurePath.stem`: the name with `pathSuffix` removed. -/
def pathStem (p : String) : String :=
  let name := (pathName p).toList
  match name.reverse.findIdx? (fun c => c == '.') with
  | Option.none => String.mk name
  | Option.some j =>
      let i := name.length - 1 - j
      if 0 < i ∧ i < name.length - 1 then String.mk (name.take i) else String.mk name

/-- The condition `template is not None and template.is_file() and
template.suffix.lower() == ".pdf"`, tested twice by `generate_filled_pdf`. -/
def templateUsable : Option Template → Bool
  | Option.none => false
  | Option.some t => t.isFile && (pyLower (pathSuffix t.path) == ".pdf")

/-- `fields.get(k) if isinstance(fields, dict) else None`. -/
def fieldGet (fields : PyVal) (k : String) : PyVal :=
  match fields with
  | PyVal.dict kvs => dictGet kvs k
  | _ => PyVal.none

/-- The `label_map` literal of `generate_filled_pdf`, in insertion order. -/
def label_map (name dob address phone email : PyVal) : List (String × PyVal) :=
  [("Full Name:", name), ("Current Address:", address), ("Telephone Number:", phone),
   ("Email Address:", email), ("Name:", name), ("Date of Birth:", dob)]

/-- One iteration of the template-branch loop of `generate_filled_pdf`:
`if not value: continue`, then `rects = page.search_for(label)`, and for a
non-empty result insert `str(value)` at
`(rect.x1 + 8, rect.y0 + (rect.y1 - rect.y0) * 0.7)` in font size 10
(`0.7` modelled as the exact rational `7/10`). -/
def labelStep (search : String → List Rect) (acc : List Insertion) (lv : String × PyVal) :
    List Insertion :=
  if pyTruthy lv.2 = false then acc
  else
    match search lv.1 with
    | [] => acc
    | rect :: _ =>
        acc ++ [⟨rect.x1 + 8, rect.y0 + (rect.y1 - rect.y0) * ((7 : Rat) / 10),
                 pyStr lv.2, 10⟩]

/-- The template-branch loop of `generate_filled_pdf` over `label_map`. -/
def labelLoop (search : String → List Rect) (lm : List (String × PyVal)) : List Insertion :=
  lm.foldl (labelStep search) []

/-- The summary text of the fallback branch: `"\n".join(lines)` with
`f"Name: {name or ''}"`-style lines (`v or ''` is `str(v)` when `v` is truthy
and the empty string otherwise). -/
def summaryText (name dob address phone email : PyVal) : String :=
  pyJoin "\n"
    ["Smart Form Filler - Extracted Data",
     "",
     "Name: " ++ (if pyTruthy name then pyStr name else ""),
     "Date of Birth: " ++ (if pyTruthy dob then pyStr dob else ""),
     "Address: " ++ (if pyTruthy address then pyStr address else ""),
     "Phone: " ++ (if pyTruthy phone then pyStr phone else ""),
     "Email: " ++ (if pyTruthy email then pyStr email else "")]

/-- `generate_filled_pdf(fields, output_dir, template_path)`. The filesystem
`mkdir` side effect is dropped; `doc.save`/`return` record the same path. -/
def generate_filled_pdf (fields : PyVal) (output_dir : String)
    (template_path : Option Template) : FillResult :=
  let usedTemplate := templateUsable template_path
  let pdf_path :=
    match template_path with
    | Option.some t =>
        if templateUsable template_path then
          output_dir ++ "/" ++ (pathStem t.path ++ "_filled.pdf")
        else output_dir ++ "/" ++ "filled_form.pdf"
    | Option.none => output_dir ++ "/" ++ "filled_form.pdf"
  let name := fieldGet fields "name"
  let dob := fieldGet fields "dob"
  let address := fieldGet fields "address"
  let phone := fieldGet fields "phone"
  let email := fieldGet fields "email"
  let insertions :=
    match template_path with
    | Option.some t =>
        if templateUsable template_path then
          labelLoop t.searchFor (label_map name dob address phone email)
        else [⟨72, 72, summaryText name dob address phone email, 12⟩]
    | Option.none => [⟨72, 72, summaryText name dob address phone email, 12⟩]
  ⟨usedTemplate, insertions, pdf_path, pdf_path⟩

/-! ### Derived definitions and concrete oracles used in the theorems -/

/-- The value transformation performed for one field key on its current
value by `_enforce_substring_constraints`: a string with a non-empty
normalization missing from the normalized source becomes `None`; everything
else is untouched. -/
def checkVal (ocr_norm : String) : PyVal → PyVal
  | PyVal.str s =>
      if normalizeText s ≠ "" ∧ strContains ocr_norm (normalizeText s) = false then PyVal.none
      else PyVal.str s
  | v => v

/-- A concrete `json.loads` oracle: the model answered the JSON object
holding the single pair `name: 42`. -/
def parseNameNum : String → Option PyVal := fun t =>
  if t = "\x7b \"name\": 42 \x7d" then Option.some (PyVal.dict [("name", PyVal.int 42)])
  else Option.none

/-- A concrete template file on whose first page no text search succeeds. -/
def noLabelTemplate : Template := ⟨"form.pdf", true, fun _ => []⟩

/-- A concrete template file whose first page contains exactly the label
`"Name:"`, with bounding box `(0, 0, 10, 10)`. -/
def nameLabelTemplate : Template :=
  ⟨"t.pdf", true, fun lbl => if lbl = "Name:" then [⟨0, 0, 10, 10⟩] else []⟩

/-! ### Dictionary lemmas -/

theorem dictGet_dictSet_self (d : List (String × PyVal)) (k : String) (v : PyVal) :
    dictGet (dictSet d k v) k = v := by
  induction d with
  | nil => simp [dictSet, dictGet]
  | cons kv rest ih =>
      by_cases h : kv.1 = k
      · simp [dictSet, h, dictGet]
      · simp [dictSet, h, dictGet, ih]

theorem dictGet_dictSet_ne (d : List (String × PyVal)) (k k' : String) (v : PyVal)
    (h : k' ≠ k) : dictGet (dictSet d k' v) k = dictGet d k := by
  induction d with
  | nil => simp [dictSet, dictGet, h]
  | cons kv rest ih =>
      by_cases h' : kv.1 = k'
      · simp [dictSet, h', dictGet, h, ih]
      · simp [dictSet, h', dictGet, ih]

theorem keys_dictSet (d : List (String × PyVal)) (k : String) (v : PyVal) :
    (dictSet d k v).map Prod.fst
      = if hasKey d k then d.map Prod.fst else d.map Prod.fst ++ [k] := by
  induction d with
  | nil => simp [dictSet, hasKey]
  | cons kv rest ih =>
      by_cases h : kv.1 = k
      · simp [dictSet, h, hasKey]
      · simp [dictSet, h, hasKey, ih]
        by_cases h2 : hasKey rest k <;> simp [h2]

theorem hasKey_of_dictGet_str (d : List (String × PyVal)) (k : String) (s : String)
    (h : dictGet d k = PyVal.str s) : hasKey d k = true := by
  induction d with
  | nil => exact absurd h (by simp [dictGet])
  | cons kv rest ih =>
      by_cases h' : kv.1 = k
      · simp [hasKey, h']
      · simp [dictGet, h'] at h
        simp [hasKey, h', ih h]

theorem toList_eq_nil_imp (t : String) (h : t.toList = []) : t = "" := by
  cases t with
  | mk data => simp only [String.toList] at h; subst h; rfl

/-! ### Lemmas about the substring check -/

theorem strContains_empty_needle (h : String) : strContains h "" = true := by
  show listContainsSub ("" : String).toList h.toList = true
  have he : ("" : String).toList = [] := rfl
  rw [he]
  cases h.toList with
  | nil => rfl
  | cons c cs => simp [listContainsSub, listStartsWith]

theorem eq_empty_of_contains_in_empty (t : String) (h : strContains "" t = true) : t = "" := by
  have he : ("" : String).toList = [] := rfl
  unfold strContains at h
  rw [he] at h
  have : t.toList.isEmpty = true := h
  exact toList_eq_nil_imp t (by simpa [List.isEmpty_iff] using this)

/-! ### Lemmas about `_enforce_substring_constraints` -/

theorem enforceStep_get_self (ocr : String) (d : List (String × PyVal)) (key : String) :
    dictGet (enforceStep ocr d key) key = checkVal ocr (dictGet d key) := by
  unfold enforceStep
  cases hv : dictGet d key with
  | str s =>
      simp only [checkVal]
      by_cases hc : normalizeText s ≠ "" ∧ strContains ocr (normalizeText s) = false
      · simp [hc, dictGet_dictSet_self]
      · simp [hc, hv]
  | none => simp [checkVal, hv]
  | int n => simp [checkVal, hv]
  | bool b => simp [checkVal, hv]
  | list xs => simp [checkVal, hv]
  | dict kvs => simp [checkVal, hv]

theorem enforceStep_get_ne (ocr : String) (d : List (String × PyVal)) (key k : String)
    (h : key ≠ k) : dictGet (enforceStep ocr d key) k = dictGet d k := by
  unfold enforceStep
  cases hv : dictGet d key with
  | str s =>
      by_cases hc : normalizeText s ≠ "" ∧ strContains ocr (normalizeText s) = false
      · simp [hc, dictGet_dictSet_ne _ _ _ _ h]
      · simp [hc]
  | none => rfl
  | int n => rfl
  | bool b => rfl
  | list xs => rfl
  | dict kvs => rfl

theorem enforceStep_keys (ocr : String) (d : List (String × PyVal)) (key : String) :
    (enforceStep ocr d key).map Prod.fst = d.map Prod.fst := by
  unfold enforceStep
  cases hv : dictGet d key with
  | str s =>
      by_cases hc : normalizeText s ≠ "" ∧ strContains ocr (normalizeText s) = false
      · simp [hc, keys_dictSet, hasKey_of_dictGet_str d key s hv]
      · simp [hc]
  | none => rfl
  | int n => rfl
  | bool b => rfl
  | list xs => rfl
  | dict kvs => rfl

theorem foldl_enforceStep_get_notmem (ocr : String) (ks : List String)
    (d : List (String × PyVal)) (k : String) (h : k ∉ ks) :
    dictGet (ks.foldl (enforceStep ocr) d) k = dictGet d k := by
  induction ks generalizing d with
  | nil => rfl
  | cons a ks ih =>
      have hne : a ≠ k := fun he => h (he ▸ List.mem_cons_self a ks)
      have hnm : k ∉ ks := fun hm => h (List.mem_cons_of_mem a hm)
      simp only [List.foldl_cons]
      rw [ih (enforceStep ocr d a) hnm, enforceStep_get_ne ocr d a k hne]

theorem foldl_enforceStep_get_mem (ocr : String) (ks : List String)
    (d : List (String × PyVal)) (k : String) (hnd : ks.Nodup) (h : k ∈ ks) :
    dictGet (ks.foldl (enforceStep ocr) d) k = checkVal ocr (dictGet d k) := by
  induction ks generalizing d with
  | nil => exact absurd h (List.not_mem_nil k)
  | cons a ks ih =>
      rcases List.nodup_cons.mp hnd with ⟨hna, hnd'⟩
      simp only [List.foldl_cons]
      rcases List.mem_cons.mp h with he | hm
      · subst he
        rw [foldl_enforceStep_get_notmem ocr ks _ k hna, enforceStep_get_self]
      · have hne : a ≠ k := fun he => hna (he ▸ hm)
        rw [ih (enforceStep ocr d a) hnd' hm, enforceStep_get_ne ocr d a k hne]

theorem foldl_enforceStep_keys (ocr : String) (ks : List String)
    (d : List (String × PyVal)) :
    (ks.foldl (enforceStep ocr) d).map Prod.fst = d.map Prod.fst := by
  induction ks generalizing d with
  | nil => rfl
  | cons a ks ih =>
      simp only [List.foldl_cons]
      rw [ih (enforceStep ocr d a), enforceStep_keys]

theorem foldl_eq_self_of_step_id {α β : Type} (f : α → β → α) (ks : List β) (d : α)
    (h : ∀ k ∈ ks, f d k = d) : ks.foldl f d = d := by
  induction ks with
  | nil => rfl
  | cons a ks ih =>
      simp only [List.foldl_cons]
      rw [h a (List.mem_cons_self a ks)]
      exact ih (fun k hk => h k (List.mem_cons_of_mem a hk))

theorem checkVal_eq_str (ocr : String) (v : PyVal) (s : String)
    (h : checkVal ocr v = PyVal.str s) :
    v = PyVal.str s ∧ (normalizeText s = "" ∨ strContains ocr (normalizeText s) = true) := by
  cases v with
  | str s0 =>
      by_cases hc : normalizeText s0 ≠ "" ∧ strContains ocr (normalizeText s0) = false
      · simp [checkVal, hc] at h
      · simp [checkVal, hc] at h
        subst h
        rcases Decidable.not_and_iff_or_not.mp hc with h1 | h2
        · exact ⟨rfl, Or.inl (Decidable.not_not.mp h1)⟩
        · exact ⟨rfl, Or.inr (by
            cases hb : strContains ocr (normalizeText s0)
            · exact absurd hb h2
            · rfl)⟩
  | none => simp [checkVal] at h
  | int n => simp [checkVal] at h
  | bool b => simp [checkVal] at h
  | list xs => simp [checkVal] at h
  | dict kvs => simp [checkVal] at h

theorem enforceStep_id_of_checked (ocr : String) (d : List (String × PyVal)) (key : String)
    (h : ∀ s, dictGet d key = PyVal.str s
        → normalizeText s = "" ∨ strContains ocr (normalizeText s) = true) :
    enforceStep ocr d key = d := by
  unfold enforceStep
  cases hv : dictGet d key with
  | str s =>
      rcases h s hv with h1 | h2
      · simp [h1]
      · simp [h2]
  | none => rfl
  | int n => rfl
  | bool b => rfl
  | list xs => rfl
  | dict kvs => rfl

theorem hasKey_iff_mem_keys (d : List (String × PyVal)) (k : String) :
    hasKey d k = true ↔ k ∈ d.map Prod.fst := by
  induction d with
  | nil => simp [hasKey]
  | cons kv rest ih =>
      by_cases h : kv.1 = k
      · simp [hasKey, h]
      · simp [hasKey, h, ih, Ne.symm h]

theorem bool_eq_of_iff {a b : Bool} (h : a = true ↔ b = true) : a = b := by
  cases a <;> cases b <;> simp_all

/-! ### Append/containment lemmas for strings -/

theorem toList_append (s t : String) : (s ++ t).toList = s.toList ++ t.toList := by
  cases s; cases t; rfl

theorem listStartsWith_append (m b : List Char) : listStartsWith m (m ++ b) = true := by
  induction m with
  | nil => rfl
  | cons a as ih => simp [listStartsWith, ih]

theorem listContainsSub_append (a m b : List Char) : listContainsSub m (a ++ m ++ b) = true := by
  induction a with
  | nil =>
      cases hm : m with
      | nil =>
          cases b with
          | nil => rfl
          | cons c cs => simp [listContainsSub, listStartsWith]
      | cons c cs =>
          simp only [List.nil_append]
          show listContainsSub (c :: cs) (c :: cs ++ b) = true
          simp only [listContainsSub, Bool.or_eq_true]
          exact Or.inl (listStartsWith_append (c :: cs) b)
  | cons x xs ih =>
      simp only [List.cons_append]
      show listContainsSub m (x :: (xs ++ m ++ b)) = true
      simp only [listContainsSub, Bool.or_eq_true]
      exact Or.inr (by simpa [List.append_assoc] using ih)

theorem strContains_append (a m b : String) : strContains (a ++ m ++ b) m = true := by
  unfold strContains
  rw [toList_append, toList_append]
  exact listContainsSub_append a.toList m.toList b.toList

theorem pyJoin_mem_exists (sep : String) (lines : List String) (l : String) (h : l ∈ lines) :
    ∃ a b : List Char, (pyJoin sep lines).toList = a ++ l.toList ++ b := by
  induction lines with
  | nil => cases h
  | cons x xs ih =>
      cases xs with
      | nil =>
          rcases List.mem_singleton.mp h with rfl
          exact ⟨[], [], by simp [pyJoin]⟩
      | cons y ys =>
          rcases List.mem_cons.mp h with he | hm
          · subst he
            refine ⟨[], (sep ++ pyJoin sep (y :: ys)).toList, ?_⟩
            show (l ++ sep ++ pyJoin sep (y :: ys)).toList = [] ++ l.toList ++ _
            simp [toList_append, List.append_assoc]
          · obtain ⟨a, b, hab⟩ := ih hm
            refine ⟨x.toList ++ sep.toList ++ a, b, ?_⟩
            show (x ++ sep ++ pyJoin sep (y :: ys)).toList = _
            have hab' : (pyJoin sep (y :: ys)).data = a ++ (l.data ++ b) := by
              simpa [List.append_assoc] using hab
            simp [toList_append, hab', List.append_assoc]

theorem strContains_join (sep : String) (lines : List String) (l v : String)
    (hmem : l ∈ lines) (hv : ∃ a b : List Char, l.toList = a ++ v.toList ++ b) :
    strContains (pyJoin sep lines) v = true := by
  obtain ⟨a, b, hab⟩ := pyJoin_mem_exists sep lines l hmem
  obtain ⟨c, d, hcd⟩ := hv
  unfold strContains
  rw [hab, hcd]
  have he : a ++ (c ++ v.toList ++ d) ++ b = (a ++ c) ++ v.toList ++ (d ++ b) := by
    simp [List.append_assoc]
  rw [he]
  exact listContainsSub_append (a ++ c) v.toList (d ++ b)

/-! ### Lemmas about the label-placement loop -/

theorem labelStep_mono (search : String → List Rect) (acc : List Insertion)
    (lv : String × PyVal) (i : Insertion) (h : i ∈ acc) : i ∈ labelStep search acc lv := by
  unfold labelStep
  by_cases ht : pyTruthy lv.2 = false
  · simp [ht, h]
  · simp only [ht, if_false]
    cases search lv.1 with
    | nil => exact h
    | cons r rs => exact List.mem_append_left _ h

theorem labelLoop_foldl_mono (search : String → List Rect) (lm : List (String × PyVal))
    (acc : List Insertion) (i : Insertion) (h : i ∈ acc) :
    i ∈ lm.foldl (labelStep search) acc := by
  induction lm generalizing acc with
  | nil => exact h
  | cons lv lm ih =>
      simp only [List.foldl_cons]
      exact ih (labelStep search acc lv) (labelStep_mono search acc lv i h)

theorem labelLoop_foldl_mem (search : String → List Rect) (lm : List (String × PyVal))
    (acc : List Insertion) (label : String) (value : PyVal)
    (hmem : (label, value) ∈ lm) (htr : pyTruthy value = true)
    (rect : Rect) (rs : List Rect) (hs : search label = rect :: rs) :
    (⟨rect.x1 + 8, rect.y0 + (rect.y1 - rect.y0) * ((7 : Rat) / 10), pyStr value, 10⟩ : Insertion)
      ∈ lm.foldl (labelStep search) acc := by
  induction lm generalizing acc with
  | nil => cases hmem
  | cons lv lm ih =>
      simp only [List.foldl_cons]
      rcases List.mem_cons.mp hmem with he | hm
      · have hstep : labelStep search acc lv
            = acc ++ [⟨rect.x1 + 8, rect.y0 + (rect.y1 - rect.y0) * ((7 : Rat) / 10),
                       pyStr value, 10⟩] := by
          rw [← he]
          unfold labelStep
          simp [htr, hs]
        rw [hstep]
        exact labelLoop_foldl_mono search lm _ _
          (List.mem_append_right _ (List.mem_singleton.mpr rfl))
      · exact ih (labelStep search acc lv) hm

theorem labelLoop_empty_of_no_match (search : String → List Rect)
    (lm : List (String × PyVal)) (hs : ∀ lbl, search lbl = []) :
    labelLoop search lm = [] := by
  unfold labelLoop
  apply foldl_eq_self_of_step_id
  intro lv _
  unfold labelStep
  by_cases ht : pyTruthy lv.2 = false
  · simp [ht]
  · simp [ht, hs lv.1]

/-- Shared helper: the parse-failure path of `extract_fields_with_gemini`
returns the five null fields with `_raw_model_output` and `raw_text`. -/
theorem extract_parse_failure_result (k raw rtext : String)
    (pj : String → Option PyVal)
    (hp : pj (stripCodeFence (pyStrip rtext)) = Option.none) :
    extract_fields_with_gemini ⟨Option.some k⟩ pj (ModelOutcome.response rtext) raw
      = Except.ok (nullFields
          ++ [("_raw_model_output", PyVal.str (stripCodeFence (pyStrip rtext))),
              ("raw_text", PyVal.str raw)]) := by
  unfold extract_fields_with_gemini
  simp only [hp]
  rfl

/-! ### Claim theorems -/

/-- C1: the claimed invariant — every non-null value among the five field
keys of the returned dictionary occurs (normalized) in the normalized source
text — fails on the code: a non-string JSON value (here the number `42`)
skips the `isinstance(val, str)` guard of `_enforce_substring_constraints`
and is kept even though its text does not occur in the source `"hello"`,
contradicting that function's own docstring. -/
theorem nonstring_value_escapes_substring_guard :
    extract_fields_with_gemini ⟨Option.some "k"⟩ parseNameNum
      (ModelOutcome.response "\x7b \"name\": 42 \x7d") "hello"
      = Except.ok [("name", PyVal.int 42), ("raw_text", PyVal.str "hello")]
    ∧ strContains (normalizeText "hello") (normalizeText (pyStr (PyVal.int 42))) = false
    ∧ PyVal.int 42 ≠ PyVal.none :=
  ⟨rfl, rfl, fun h => PyVal.noConfusion h⟩

/-- C2 counterexample: `extract_fields_with_gemini` does raise when the
configuration is missing — `_get_model()` runs before the `try` block, so an
unset API key propagates a `RuntimeError` instead of returning a structured
result. -/
theorem extract_raises_when_api_key_missing :
    extract_fields_with_gemini ⟨Option.none⟩ (fun _ => Option.none)
      (ModelOutcome.response "x") "some text"
      = Except.error "RuntimeError: GEMINI_API_KEY is not set in environment or .env file" :=
  rfl

/-- C2 (amended): when the API key is configured, a failing model call is
caught and yields all five fields null together with `raw_text` (the
original input) and an `_error` string; when the API key is missing the
function instead raises before the call. -/
theorem extract_failure_path_and_missing_key (k : String) (pj : String → Option PyVal)
    (o : ModelOutcome) (exc raw : String) :
    extract_fields_with_gemini ⟨Option.some k⟩ pj (ModelOutcome.failure exc) raw
      = Except.ok (nullFields ++ [("raw_text", PyVal.str raw),
          ("_error", PyVal.str ("Gemini request failed: " ++ exc))])
    ∧ ∃ e, extract_fields_with_gemini ⟨Option.none⟩ pj o raw = Except.error e :=
  ⟨rfl, ⟨_, rfl⟩⟩

/-- C3: when the model's response text (stripped, with an optional code
fence removed) fails to parse as JSON, the result has all five fields null,
`_raw_model_output` holding that stripped text, and `raw_text` holding the
source. -/
theorem malformed_json_yields_null_fields_with_raw_output (k raw rtext : String)
    (pj : String → Option PyVal)
    (hp : pj (stripCodeFence (pyStrip rtext)) = Option.none) :
    extract_fields_with_gemini ⟨Option.some k⟩ pj (ModelOutcome.response rtext) raw
      = Except.ok (nullFields
          ++ [("_raw_model_output", PyVal.str (stripCodeFence (pyStrip rtext))),
              ("raw_text", PyVal.str raw)]) :=
  extract_parse_failure_result k raw rtext pj hp

/-- C3 witness: a concrete non-JSON response. -/
theorem malformed_json_witness :
    extract_fields_with_gemini ⟨Option.some "k"⟩ (fun _ => Option.none)
      (ModelOutcome.response "oops") "hello"
      = Except.ok (nullFields
          ++ [("_raw_model_output", PyVal.str "oops"), ("raw_text", PyVal.str "hello")]) :=
  malformed_json_yields_null_fields_with_raw_output "k" "hello" "oops"
    (fun _ => Option.none) rfl

/-- C4: for a field key holding a string value, the verifier nulls it when
its normalization is absent from the normalized source, keeps it unchanged
when present, and in either case changes no keys (so no error marker is
added). -/
theorem verifier_nulls_absent_and_keeps_present (src : String)
    (kvs kvs' : List (String × PyVal)) (key : String) (hkey : key ∈ FIELD_KEYS)
    (s : String) (hval : dictGet kvs key = PyVal.str s)
    (h : enforce_substring_constraints (PyVal.dict kvs) src = Except.ok kvs') :
    (strContains (normalizeText src) (normalizeText s) = false → dictGet kvs' key = PyVal.none)
    ∧ (strContains (normalizeText src) (normalizeText s) = true → dictGet kvs' key = PyVal.str s)
    ∧ kvs'.map Prod.fst = kvs.map Prod.fst := by
  have hk : kvs' = FIELD_KEYS.foldl (enforceStep (normalizeText src)) kvs := by
    have := h
    unfold enforce_substring_constraints at this
    exact (Except.ok.inj this).symm
  have hget : dictGet kvs' key = checkVal (normalizeText src) (dictGet kvs key) := by
    rw [hk]
    exact foldl_enforceStep_get_mem (normalizeText src) FIELD_KEYS kvs key (by decide) hkey
  rw [hval] at hget
  refine ⟨?_, ?_, ?_⟩
  · intro hf
    have hne : normalizeText s ≠ "" := by
      intro he
      rw [he, strContains_empty_needle] at hf
      cases hf
    rw [hget]
    simp [checkVal, hne, hf]
  · intro ht
    rw [hget]
    simp [checkVal, ht]
  · rw [hk]
    exact foldl_enforceStep_keys (normalizeText src) FIELD_KEYS kvs

/-- C4 witness: the spec's own example — source "John Smith lives in Texas"
with model output name="John Smith", dob="1990-01-01" — nulls `dob`. -/
theorem verifier_nulls_absent_witness :
    dictGet [("name", PyVal.str "John Smith"), ("dob", PyVal.none)] "dob" = PyVal.none :=
  (verifier_nulls_absent_and_keeps_present "John Smith lives in Texas"
    [("name", PyVal.str "John Smith"), ("dob", PyVal.str "1990-01-01")]
    [("name", PyVal.str "John Smith"), ("dob", PyVal.none)]
    "dob" (by decide) "1990-01-01" rfl rfl).1 rfl

/-- C5 counterexample: with the empty source text the claim "all five fields
are null whatever the model response is" fails — a model value that is a
whitespace-only string (here `" "`) has empty normalization, skips the
`if val_norm` truthiness guard, and is kept non-null. -/
theorem empty_source_whitespace_value_kept :
    extract_fields_with_gemini ⟨Option.some "k"⟩
      (fun _ => Option.some (PyVal.dict [("name", PyVal.str " ")]))
      (ModelOutcome.response "resp") ""
      = Except.ok [("name", PyVal.str " "), ("raw_text", PyVal.str "")]
    ∧ PyVal.str " " ≠ PyVal.none :=
  ⟨rfl, fun h => PyVal.noConfusion h⟩

/-- C5 (amended): for the empty source text, with the API key configured and
a model response that fails, fails to parse, or parses to a JSON object,
`extract_fields_with_gemini` returns without raising, and every one of the
five field keys holding a string value holds one whose normalization is
empty — in particular every string field with visible content is nulled. -/
theorem empty_source_string_fields_whitespace_only (k : String)
    (pj : String → Option PyVal) (o : ModelOutcome)
    (hobj : ∀ t v, pj t = Option.some v → ∃ kvs0, v = PyVal.dict kvs0) :
    ∃ kvs, extract_fields_with_gemini ⟨Option.some k⟩ pj o "" = Except.ok kvs
      ∧ ∀ key ∈ FIELD_KEYS, ∀ s, dictGet kvs key = PyVal.str s → normalizeText s = "" := by
  cases o with
  | failure exc =>
      refine ⟨_, rfl, ?_⟩
      intro key hkey s hs
      exfalso
      fin_cases hkey <;> simp [nullFields, dictGet] at hs
  | response rtext =>
      cases hpj : pj (stripCodeFence (pyStrip rtext)) with
      | none =>
          refine ⟨_, extract_parse_failure_result k "" rtext pj hpj, ?_⟩
          intro key hkey s hs
          exfalso
          fin_cases hkey <;> simp [nullFields, dictGet] at hs
      | some v =>
          obtain ⟨kvs0, rfl⟩ := hobj _ v hpj
          refine ⟨dictSet (FIELD_KEYS.foldl (enforceStep (normalizeText "")) kvs0)
            "raw_text" (PyVal.str ""), ?_, ?_⟩
          · unfold extract_fields_with_gemini
            simp only [hpj]
            rfl
          · intro key hkey s hs
            have hraw : "raw_text" ≠ key := by fin_cases hkey <;> decide
            rw [dictGet_dictSet_ne _ _ _ _ hraw] at hs
            rw [foldl_enforceStep_get_mem (normalizeText "") FIELD_KEYS kvs0 key
              (by decide) hkey] at hs
            rcases checkVal_eq_str _ _ _ hs with ⟨_, h1 | h2⟩
            · exact h1
            · have hz : normalizeText ("" : String) = "" := rfl
              rw [hz] at h2
              exact eq_empty_of_contains_in_empty _ h2

/-- C5 witness: a concrete run with the empty source. -/
theorem empty_source_witness :
    ∃ kvs, extract_fields_with_gemini ⟨Option.some "k"⟩
        (fun _ => Option.some (PyVal.dict [])) (ModelOutcome.response "zz") ""
        = Except.ok kvs
      ∧ ∀ key ∈ FIELD_KEYS, ∀ s, dictGet kvs key = PyVal.str s → normalizeText s = "" :=
  empty_source_string_fields_whitespace_only "k" (fun _ => Option.some (PyVal.dict []))
    (ModelOutcome.response "zz") (fun _ _ h => ⟨[], (Option.some.inj h).symm⟩)

/-- C10: the verifier is idempotent — a dictionary that
`_enforce_substring_constraints` has produced passes through it unchanged. -/
theorem enforce_substring_idempotent (src : String) (kvs kvs' : List (String × PyVal))
    (h : enforce_substring_constraints (PyVal.dict kvs) src = Except.ok kvs') :
    enforce_substring_constraints (PyVal.dict kvs') src = Except.ok kvs' := by
  have hk : kvs' = FIELD_KEYS.foldl (enforceStep (normalizeText src)) kvs := by
    unfold enforce_substring_constraints at h
    exact (Except.ok.inj h).symm
  show Except.ok (FIELD_KEYS.foldl (enforceStep (normalizeText src)) kvs') = Except.ok kvs'
  congr 1
  apply foldl_eq_self_of_step_id
  intro key hkey
  apply enforceStep_id_of_checked
  intro s hs
  have hget : dictGet kvs' key = checkVal (normalizeText src) (dictGet kvs key) := by
    rw [hk]
    exact foldl_enforceStep_get_mem (normalizeText src) FIELD_KEYS kvs key (by decide) hkey
  exact (checkVal_eq_str _ _ _ (hget.symm.trans hs)).2

/-- C10 witness: a concrete dictionary whose only string value is nulled on
the first pass and untouched on the second. -/
theorem enforce_substring_idempotent_witness :
    enforce_substring_constraints (PyVal.dict [("name", PyVal.none)]) "ab"
      = Except.ok [("name", PyVal.none)] :=
  enforce_substring_idempotent "ab" [("name", PyVal.str "zz")] [("name", PyVal.none)] rfl

/-- C9 counterexample: the claimed key schema fails — a model JSON object
with an extra key `"foo"` and no field keys is passed through: the result
retains `"foo"` and has no `"name"` key at all. -/
theorem extra_model_keys_retained :
    extract_fields_with_gemini ⟨Option.some "k"⟩
      (fun _ => Option.some (PyVal.dict [("foo", PyVal.str "bar")]))
      (ModelOutcome.response "resp") "bar x"
      = Except.ok [("foo", PyVal.str "bar"), ("raw_text", PyVal.str "bar x")]
    ∧ hasKey [("foo", PyVal.str "bar"), ("raw_text", PyVal.str "bar x")] "name" = false
    ∧ hasKey [("foo", PyVal.str "bar"), ("raw_text", PyVal.str "bar x")] "foo" = true :=
  ⟨rfl, rfl, rfl⟩

/-- C9 (amended): on the call-failure and parse-failure paths the result has
exactly the five field keys (null) plus `raw_text` plus one error key; on
the successful-parse path the result's keys are exactly the parsed object's
keys with `raw_text` appended when absent — extra model keys are retained
and missing field keys stay absent. -/
theorem result_key_structure (k raw rtext : String) (pj : String → Option PyVal) :
    (∀ exc, (extract_fields_with_gemini ⟨Option.some k⟩ pj (ModelOutcome.failure exc) raw
        = Except.ok (nullFields ++ [("raw_text", PyVal.str raw),
            ("_error", PyVal.str ("Gemini request failed: " ++ exc))])))
    ∧ (pj (stripCodeFence (pyStrip rtext)) = Option.none →
        extract_fields_with_gemini ⟨Option.some k⟩ pj (ModelOutcome.response rtext) raw
          = Except.ok (nullFields
              ++ [("_raw_model_output", PyVal.str (stripCodeFence (pyStrip rtext))),
                  ("raw_text", PyVal.str raw)]))
    ∧ (∀ kvs0, pj (stripCodeFence (pyStrip rtext)) = Option.some (PyVal.dict kvs0) →
        ∃ kvs, extract_fields_with_gemini ⟨Option.some k⟩ pj (ModelOutcome.response rtext) raw
            = Except.ok kvs
          ∧ kvs.map Prod.fst = (if hasKey kvs0 "raw_text" then kvs0.map Prod.fst
              else kvs0.map Prod.fst ++ ["raw_text"])) := by
  refine ⟨fun exc => rfl, ?_, ?_⟩
  · intro hp
    exact extract_parse_failure_result k raw rtext pj hp
  · intro kvs0 hpj
    refine ⟨dictSet (FIELD_KEYS.foldl (enforceStep (normalizeText raw)) kvs0)
      "raw_text" (PyVal.str raw), ?_, ?_⟩
    · unfold extract_fields_with_gemini
      simp only [hpj]
      rfl
    · have hkeys : (FIELD_KEYS.foldl (enforceStep (normalizeText raw)) kvs0).map Prod.fst
          = kvs0.map Prod.fst :=
        foldl_enforceStep_keys (normalizeText raw) FIELD_KEYS kvs0
      have hhk : hasKey (FIELD_KEYS.foldl (enforceStep (normalizeText raw)) kvs0) "raw_text"
          = hasKey kvs0 "raw_text" := by
        apply bool_eq_of_iff
        rw [hasKey_iff_mem_keys, hasKey_iff_mem_keys, hkeys]
      rw [keys_dictSet, hhk, hkeys]

/-- C9 witness: a concrete successful parse with a foreign key. -/
theorem result_key_structure_witness :
    ∃ kvs, extract_fields_with_gemini ⟨Option.some "k"⟩
        (fun _ => Option.some (PyVal.dict [("foo", PyVal.str "bar")]))
        (ModelOutcome.response "r") "raw" = Except.ok kvs
      ∧ kvs.map Prod.fst
          = (if hasKey [("foo", PyVal.str "bar")] "raw_text"
              then [("foo", PyVal.str "bar")].map Prod.fst
              else [("foo", PyVal.str "bar")].map Prod.fst ++ ["raw_text"]) :=
  (result_key_structure "k" "raw" "r"
    (fun _ => Option.some (PyVal.dict [("foo", PyVal.str "bar")]))).2.2
    [("foo", PyVal.str "bar")] rfl

/-- C6 counterexample: a valid template PDF on whose first page no label is
found does not produce a summary page — the template page is saved with no
insertions, so the provided field value `"Jane Doe"` appears nowhere. -/
theorem template_without_labels_saves_page_unchanged :
    (generate_filled_pdf (PyVal.dict [("name", PyVal.str "Jane Doe")]) "out"
        (Option.some noLabelTemplate)).insertions = []
    ∧ (generate_filled_pdf (PyVal.dict [("name", PyVal.str "Jane Doe")]) "out"
        (Option.some noLabelTemplate)).usedTemplate = true :=
  ⟨rfl, rfl⟩

/-- C6 (amended): when no template is supplied, the output is the one-page
summary whose text lists all five field labels and contains every truthy
field value rendered by `str`; when a usable template has no matching label
on its first page, the template page is saved with no insertions (not a
summary). -/
theorem summary_page_and_unmatched_template (fields : PyVal) (out : String) :
    ((generate_filled_pdf fields out Option.none).usedTemplate = false
      ∧ (generate_filled_pdf fields out Option.none).insertions
          = [⟨72, 72, summaryText (fieldGet fields "name") (fieldGet fields "dob")
                (fieldGet fields "address") (fieldGet fields "phone")
                (fieldGet fields "email"), 12⟩]
      ∧ (∀ lbl ∈ ["Name:", "Date of Birth:", "Address:", "Phone:", "Email:"],
          strContains (summaryText (fieldGet fields "name") (fieldGet fields "dob")
              (fieldGet fields "address") (fieldGet fields "phone")
              (fieldGet fields "email")) lbl = true)
      ∧ ∀ key ∈ FIELD_KEYS, pyTruthy (fieldGet fields key) = true →
          strContains (summaryText (fieldGet fields "name") (fieldGet fields "dob")
              (fieldGet fields "address") (fieldGet fields "phone")
              (fieldGet fields "email")) (pyStr (fieldGet fields key)) = true)
    ∧ (∀ t : Template, templateUsable (Option.some t) = true →
        (∀ lbl, t.searchFor lbl = []) →
        (generate_filled_pdf fields out (Option.some t)).insertions = []) := by
  refine ⟨⟨rfl, rfl, ?_, ?_⟩, ?_⟩
  · intro lbl hlbl
    fin_cases hlbl
    · unfold summaryText
      refine strContains_join "\n" _
        ("Name: " ++ (if pyTruthy (fieldGet fields "name")
          then pyStr (fieldGet fields "name") else "")) _
        (List.mem_cons_of_mem _ (List.mem_cons_of_mem _ (List.mem_cons_self _ _))) ?_
      exact ⟨[], ' ' :: (if pyTruthy (fieldGet fields "name")
        then pyStr (fieldGet fields "name") else "").toList, by simp [toList_append]⟩
    · unfold summaryText
      refine strContains_join "\n" _
        ("Date of Birth: " ++ (if pyTruthy (fieldGet fields "dob")
          then pyStr (fieldGet fields "dob") else "")) _
        (List.mem_cons_of_mem _ (List.mem_cons_of_mem _ (List.mem_cons_of_mem _
          (List.mem_cons_self _ _)))) ?_
      exact ⟨[], ' ' :: (if pyTruthy (fieldGet fields "dob")
        then pyStr (fieldGet fields "dob") else "").toList, by simp [toList_append]⟩
    · unfold summaryText
      refine strContains_join "\n" _
        ("Address: " ++ (if pyTruthy (fieldGet fields "address")
          then pyStr (fieldGet fields "address") else "")) _
        (List.mem_cons_of_mem _ (List.mem_cons_of_mem _ (List.mem_cons_of_mem _
          (List.mem_cons_of_mem _ (List.mem_cons_self _ _))))) ?_
      exact ⟨[], ' ' :: (if pyTruthy (fieldGet fields "address")
        then pyStr (fieldGet fields "address") else "").toList, by simp [toList_append]⟩
    · unfold summaryText
      refine strContains_join "\n" _
        ("Phone: " ++ (if pyTruthy (fieldGet fields "phone")
          then pyStr (fieldGet fields "phone") else "")) _
        (List.mem_cons_of_mem _ (List.mem_cons_of_mem _ (List.mem_cons_of_mem _
          (List.mem_cons_of_mem _ (List.mem_cons_of_mem _ (List.mem_cons_self _ _)))))) ?_
      exact ⟨[], ' ' :: (if pyTruthy (fieldGet fields "phone")
        then pyStr (fieldGet fields "phone") else "").toList, by simp [toList_append]⟩
    · unfold summaryText
      refine strContains_join "\n" _
        ("Email: " ++ (if pyTruthy (fieldGet fields "email")
          then pyStr (fieldGet fields "email") else "")) _
        (List.mem_cons_of_mem _ (List.mem_cons_of_mem _ (List.mem_cons_of_mem _
          (List.mem_cons_of_mem _ (List.mem_cons_of_mem _ (List.mem_cons_of_mem _
            (List.mem_cons_self _ _))))))) ?_
      exact ⟨[], ' ' :: (if pyTruthy (fieldGet fields "email")
        then pyStr (fieldGet fields "email") else "").toList, by simp [toList_append]⟩
  · intro key hkey htr
    fin_cases hkey
    · unfold summaryText
      refine strContains_join "\n" _
        ("Name: " ++ (if pyTruthy (fieldGet fields "name")
          then pyStr (fieldGet fields "name") else "")) _
        (List.mem_cons_of_mem _ (List.mem_cons_of_mem _ (List.mem_cons_self _ _))) ?_
      exact ⟨"Name: ".toList, [], by simp [htr, toList_append]⟩
    · unfold summaryText
      refine strContains_join "\n" _
        ("Date of Birth: " ++ (if pyTruthy (fieldGet fields "dob")
          then pyStr (fieldGet fields "dob") else "")) _
        (List.mem_cons_of_mem _ (List.mem_cons_of_mem _ (List.mem_cons_of_mem _
          (List.mem_cons_self _ _)))) ?_
      exact ⟨"Date of Birth: ".toList, [], by simp [htr, toList_append]⟩
    · unfold summaryText
      refine strContains_join "\n" _
        ("Address: " ++ (if pyTruthy (fieldGet fields "address")
          then pyStr (fieldGet fields "address") else "")) _
        (List.mem_cons_of_mem _ (List.mem_cons_of_mem _ (List.mem_cons_of_mem _
          (List.mem_cons_of_mem _ (List.mem_cons_self _ _))))) ?_
      exact ⟨"Address: ".toList, [], by simp [htr, toList_append]⟩
    · unfold summaryText
      refine strContains_join "\n" _
        ("Phone: " ++ (if pyTruthy (fieldGet fields "phone")
          then pyStr (fieldGet fields "phone") else "")) _
        (List.mem_cons_of_mem _ (List.mem_cons_of_mem _ (List.mem_cons_of_mem _
          (List.mem_cons_of_mem _ (List.mem_cons_of_mem _ (List.mem_cons_self _ _)))))) ?_
      exact ⟨"Phone: ".toList, [], by simp [htr, toList_append]⟩
    · unfold summaryText
      refine strContains_join "\n" _
        ("Email: " ++ (if pyTruthy (fieldGet fields "email")
          then pyStr (fieldGet fields "email") else "")) _
        (List.mem_cons_of_mem _ (List.mem_cons_of_mem _ (List.mem_cons_of_mem _
          (List.mem_cons_of_mem _ (List.mem_cons_of_mem _ (List.mem_cons_of_mem _
            (List.mem_cons_self _ _))))))) ?_
      exact ⟨"Email: ".toList, [], by simp [htr, toList_append]⟩
  · intro t htu hs
    simp only [generate_filled_pdf, htu, if_true]
    exact labelLoop_empty_of_no_match t.searchFor _ hs

/-- C6 witness: a concrete truthy field value appears in the summary text. -/
theorem summary_page_witness :
    strContains (summaryText (PyVal.str "Jane") PyVal.none PyVal.none PyVal.none PyVal.none)
      "Jane" = true :=
  ((summary_page_and_unmatched_template (PyVal.dict [("name", PyVal.str "Jane")]) "out").1.2.2.2
    "name" (by decide) rfl)

/-- C7: `generate_filled_pdf` returns exactly the path it saved; that path
is `<output_dir>/<template-stem>_filled.pdf` when a template PDF file is
used and `<output_dir>/filled_form.pdf` otherwise. -/
theorem filled_pdf_output_path (fields : PyVal) (out : String) (tp : Option Template) :
    (generate_filled_pdf fields out tp).returnedPath = (generate_filled_pdf fields out tp).savedPath
    ∧ (∀ t, tp = Option.some t → templateUsable tp = true →
        (generate_filled_pdf fields out tp).savedPath
          = out ++ "/" ++ (pathStem t.path ++ "_filled.pdf"))
    ∧ (templateUsable tp = false →
        (generate_filled_pdf fields out tp).savedPath = out ++ "/" ++ "filled_form.pdf") := by
  refine ⟨rfl, ?_, ?_⟩
  · intro t ht htu
    subst ht
    simp [generate_filled_pdf, htu]
  · intro htu
    cases tp with
    | none => rfl
    | some t => simp [generate_filled_pdf, htu]

/-- C7 witness: the fallback file name with no template. -/
theorem filled_pdf_output_path_witness :
    (generate_filled_pdf (PyVal.dict []) "out" Option.none).savedPath
      = "out" ++ "/" ++ "filled_form.pdf" :=
  (filled_pdf_output_path (PyVal.dict []) "out" Option.none).2.2 rfl

/-- C8 counterexample: for the label `"Name:"` with bounding box
`(0, 0, 10, 10)` and value `"Jane"`, the text is inserted at
`(18, 7)` — `y = 7` is 70% of the way down the box, not the vertical
midpoint `5`. -/
theorem label_text_not_vertically_centered :
    (generate_filled_pdf (PyVal.dict [("name", PyVal.str "Jane")]) "out"
        (Option.some nameLabelTemplate)).insertions
      = [⟨(10 : Rat) + 8, (0 : Rat) + ((10 : Rat) - 0) * ((7 : Rat) / 10), "Jane", 10⟩]
    ∧ (0 : Rat) + ((10 : Rat) - 0) * ((7 : Rat) / 10) = 7
    ∧ ((7 : Rat) ≠ ((0 : Rat) + 10) / 2) := by
  refine ⟨rfl, by norm_num, by norm_num⟩

/-- C8 (amended): every label of `label_map` found on the page with a truthy
field value has `str(value)` inserted at `x = rect.x1 + 8` — strictly to the
right of the label's bounding box — and `y = rect.y0 + 0.7 * (rect.y1 -
rect.y0)`, i.e. 70% of the way down the box rather than its vertical
midpoint. -/
theorem label_text_offset_and_seventy_percent (fields : PyVal) (out : String) (t : Template)
    (htu : templateUsable (Option.some t) = true) (label : String) (value : PyVal)
    (hmem : (label, value) ∈ label_map (fieldGet fields "name") (fieldGet fields "dob")
        (fieldGet fields "address") (fieldGet fields "phone") (fieldGet fields "email"))
    (htr : pyTruthy value = true) (rect : Rect) (rs : List Rect)
    (hs : t.searchFor label = rect :: rs) :
    (⟨rect.x1 + 8, rect.y0 + (rect.y1 - rect.y0) * ((7 : Rat) / 10), pyStr value, 10⟩ : Insertion)
        ∈ (generate_filled_pdf fields out (Option.some t)).insertions
    ∧ rect.x1 + 8 > rect.x1 := by
  constructor
  · have hins : (generate_filled_pdf fields out (Option.some t)).insertions
        = labelLoop t.searchFor (label_map (fieldGet fields "name") (fieldGet fields "dob")
            (fieldGet fields "address") (fieldGet fields "phone")
            (fieldGet fields "email")) := by
      simp [generate_filled_pdf, htu]
    rw [hins]
    exact labelLoop_foldl_mem t.searchFor _ [] label value hmem htr rect rs hs
  · linarith

/-- C8 witness: the concrete template with a `"Name:"` label at
`(0, 0, 10, 10)` and value `"Jane"`. -/
theorem label_text_offset_witness :
    (⟨(10 : Rat) + 8, (0 : Rat) + ((10 : Rat) - 0) * ((7 : Rat) / 10), "Jane", 10⟩ : Insertion)
        ∈ (generate_filled_pdf (PyVal.dict [("name", PyVal.str "Jane")]) "out"
            (Option.some nameLabelTemplate)).insertions
    ∧ (10 : Rat) + 8 > 10 :=
  label_text_offset_and_seventy_percent (PyVal.dict [("name", PyVal.str "Jane")]) "out"
    nameLabelTemplate rfl "Name:" (PyVal.str "Jane")
    (List.mem_cons_of_mem _ (List.mem_cons_of_mem _ (List.mem_cons_of_mem _
      (List.mem_cons_of_mem _ (List.mem_cons_self _ _)))))
    rfl ⟨0, 0, 10, 10⟩ [] rfl

/-- C4 counterexample: the verifier does not null every absent field value —
a non-string value (here the number `1990` for `dob`) is skipped by the
`isinstance(val, str)` guard and kept even though `"1990"` does not occur in
the source text. -/
theorem verifier_keeps_absent_nonstring :
    enforce_substring_constraints
        (PyVal.dict [("name", PyVal.str "John Smith"), ("dob", PyVal.int 1990)])
        "John Smith lives in Texas"
      = Except.ok [("name", PyVal.str "John Smith"), ("dob", PyVal.int 1990)]
    ∧ strContains (normalizeText "John Smith lives in Texas")
        (normalizeText (pyStr (PyVal.int 1990))) = false
    ∧ PyVal.int 1990 ≠ PyVal.none :=
  ⟨rfl, rfl, fun h => PyVal.noConfusion h⟩
